import Mathlib

/-!
Verification model of `scraper.py`, the Amazon social-proof scraper.

The scraper reads an ordered list of ASIN identifiers, processes them in
chunks (`process_chunk`), fetches one page per identifier, extracts the
"bought in past month" social-proof text, checkpoints progress in a JSON
file (`load_progress` / `save_progress`), and writes results back to a
sheet (the main execution block).

Shallow embedding conventions:
- A parsed page (`BeautifulSoup` object) is a `Soup`: the fields record
  exactly the queries the scraper performs on it (the captcha input lookup,
  `get_text()`, `select_one` on the social-proofing selector, and the
  element list traversed by `find_all`).
- Network effects are an oracle `Nat → FetchOutcome` giving, per list
  position, either the fetched document or a raised network exception
  (the only exception source modelled; it is what `except` catches).
- `time.sleep` calls and issued fetches are counted/recorded in the
  accumulator so that rate-limiting and resumption claims are statable.
- Python `range(start, end)` is modelled by fuel `end - start`, the exact
  number of iterations of the loop in `process_chunk`.
- The checkpoint file is a `FileState`; a corrupt file makes `json.load`
  raise, which `load_progress` does not catch (`LoadResult.raises`).
-/

namespace Scraper

/-- Substring test on character lists, Python's `in` for strings. -/
def hasSubstrChars (pat : List Char) : List Char → Bool
  | [] => pat.isEmpty
  | c :: rest => pat.isPrefixOf (c :: rest) || hasSubstrChars pat rest

/-- Python `pat in s` on strings. -/
def strContains (s pat : String) : Bool :=
  hasSubstrChars pat.toList s.toList

/-- Python `s.lower()`: lower-case every character. -/
def pyLower (s : String) : String :=
  ⟨s.data.map Char.toLower⟩

/-- Python `s.strip()`: drop whitespace from both ends. -/
def pyStrip (s : String) : String :=
  ⟨((s.data.dropWhile Char.isWhitespace).reverse.dropWhile Char.isWhitespace).reverse⟩

/-- An HTML element as the scraper observes it: its tag name, `element.text`
(all descendant text), `element.string` (the direct/only string child, `None`
when absent, modelled as `Option`), and `element.get_text(strip=True)`. -/
structure Element where
  tag : String
  text : String
  string : Option String
  stripped : String
deriving DecidableEq, Repr

/-- A parsed page, recording exactly the queries `scraper.py` makes on the
soup: whether `soup.find('input', {'id': 'captchacharacters'})` is truthy,
`soup.get_text()`, the result of
`soup.select_one("#social-proofing-faceout-title-tk_bought > span")`, and
the document-order element list that `soup.find_all` filters. -/
structure Soup where
  captchaInput : Bool
  pageText : String
  primary : Option Element
  elements : List Element
deriving DecidableEq, Repr

/-- `is_captcha_page` (scraper.py line 110): a captcha input field exists or
the visible text contains "robot check" case-insensitively. -/
def is_captcha_page (s : Soup) : Bool :=
  s.captchaInput || strContains (pyLower s.pageText) "robot check"

/-- The tag list passed to `soup.find_all` in the fallback scan (line 174). -/
def genericTags : List String := ["span", "div", "p"]

/-- `soup.find_all(['span', 'div', 'p'])`: the document-order elements whose
tag is one of the generic kinds. -/
def findAllGeneric (s : Soup) : List Element :=
  s.elements.filter (fun e => genericTags.contains e.tag)

/-- The primary branch (lines 167-170): the `select_one` result is accepted
only when its `.text.lower()` contains "month". -/
def primaryMatch (s : Soup) : Option Element :=
  match s.primary with
  | some e => if strContains (pyLower e.text) "month" then some e else none
  | none => none

/-- The per-element test of the fallback scan (line 175): `element.string`
is truthy and contains both "bought" and "month" case-insensitively. -/
def qualifies (e : Element) : Bool :=
  match e.string with
  | some str => !str.data.isEmpty && strContains (pyLower str) "bought"
      && strContains (pyLower str) "month"
  | none => false

/-- The fallback for-loop (lines 173-178): first qualifying element wins,
`break` on the first hit. -/
def fallbackScan : List Element → Option Element
  | [] => none
  | e :: rest => if qualifies e then some e else fallbackScan rest

/-- Lines 163-178: `bought_element` after both match attempts — the primary
match if it fired, otherwise the fallback scan over the generic elements. -/
def findBought (s : Soup) : Option Element :=
  match primaryMatch s with
  | some e => some e
  | none => fallbackScan (findAllGeneric s)

/-- The extractor's outcome for one document. -/
inductive ExtractionOutcome where
  | challenge
  | found (text : String)
  | notFound
deriving DecidableEq, Repr

/-- The per-document part of the loop body (lines 159-186): captcha check
first, then `bought_element` with `get_text(strip=True)` when present. -/
def extract (s : Soup) : ExtractionOutcome :=
  if is_captcha_page s then .challenge
  else
    match findBought s with
    | some e => .found e.stripped
    | none => .notFound

/-- Contents of the progress file: absent, unparseable (so `json.load` or
the subsequent `.get` raises), or a parsed record whose
`last_processed_index` field may be missing. -/
inductive FileState where
  | absent
  | corrupt
  | record (lastIndex : Option Nat)
deriving DecidableEq, Repr

/-- Result of `load_progress`: a returned index, or a propagated exception
(caught only by the top-level handler, aborting the run). -/
inductive LoadResult where
  | ok (idx : Nat)
  | raises
deriving DecidableEq, Repr

/-- `load_progress` (lines 113-121): missing file gives 0; an existing file
is `json.load`ed (raising on corrupt contents, uncaught here) and the
`last_processed_index` field defaults to 0 via `data.get`. -/
def load_progress : FileState → LoadResult
  | .absent => .ok 0
  | .corrupt => .raises
  | .record f => .ok (f.getD 0)

/-- `save_progress` (lines 123-130): overwrite the file with a record whose
`last_processed_index` is the given index. -/
def save_progress (n : Nat) : FileState :=
  .record (some n)

/-- Outcome of `session.get` for one position: a fetched document, or a
raised network exception (caught by the loop's `except`). -/
inductive FetchOutcome where
  | response (doc : Soup)
  | netError

/-- Whether the fetch returned a response rather than raising. -/
def isResponse : FetchOutcome → Bool
  | .response _ => true
  | .netError => false

/-- Loop accumulator of `process_chunk`: `data`, `products_processed`,
`products_with_data`, plus instrumentation — the list of positions at which
a fetch was issued, and the number of `time.sleep(PAGE_LOAD_DELAY)` calls. -/
structure ChunkAcc where
  data : List (String × String)
  processed : Nat
  withData : Nat
  fetches : List Nat
  delays : Nat
deriving DecidableEq, Repr

/-- The zero-initialised accumulator (lines 138-140). -/
def accInit : ChunkAcc := ⟨[], 0, 0, [], 0⟩

/-- The for-loop of `process_chunk` (lines 145-190), iterating `fuel` more
positions starting at `i`. Per position: blank identifiers are skipped
(line 148); a fetch is issued, a raising fetch is caught by `except` and the
loop continues (line 188) — note the `time.sleep` on line 155 runs only when
`session.get` returned; a captcha page stops the loop returning the current
position (`some i`, line 161); otherwise `products_processed` is incremented
and a found element appends `(asin, text)` and increments
`products_with_data` (lines 180-186). -/
def loopChunk (asins : List String) (oracle : Nat → FetchOutcome) :
    Nat → Nat → ChunkAcc → ChunkAcc × Option Nat
  | 0, _, acc => (acc, none)
  | fuel + 1, i, acc =>
    let asin := asins.getD i ""
    if pyStrip asin = "" then
      loopChunk asins oracle fuel (i + 1) acc
    else
      match oracle i with
      | .netError =>
        loopChunk asins oracle fuel (i + 1) { acc with fetches := acc.fetches ++ [i] }
      | .response doc =>
        let acc1 : ChunkAcc :=
          { acc with fetches := acc.fetches ++ [i], delays := acc.delays + 1 }
        match extract doc with
        | .challenge => (acc1, some i)
        | .found t =>
          loopChunk asins oracle fuel (i + 1)
            { acc1 with
                processed := acc1.processed + 1,
                data := acc1.data ++ [(asin, t)],
                withData := acc1.withData + 1 }
        | .notFound =>
          loopChunk asins oracle fuel (i + 1) { acc1 with processed := acc1.processed + 1 }

/-- What `process_chunk` returns (plus instrumentation): `data`,
`products_processed`, `products_with_data`, the returned stop index, and —
for stating properties — whether/where a captcha halt occurred and the
fetch/delay trace. -/
structure ChunkOutcome where
  data : List (String × String)
  processed : Nat
  withData : Nat
  stop : Nat
  halt : Option Nat
  fetches : List Nat
  delays : Nat
deriving DecidableEq, Repr

/-- `process_chunk` (lines 132-192): `end_index = min(start + CHUNK_SIZE,
len(asins))`; iterate `range(start, end_index)` (that is `end_index - start`
steps); a captcha halt at `k` returns stop index `k`, normal completion
returns `end_index - 1`. (In the program `end_index ≥ 1` whenever this runs:
the main block guarantees `asins` nonempty and `start < len(asins)`.) -/
def process_chunk (chunkSize : Nat) (asins : List String)
    (oracle : Nat → FetchOutcome) (startIndex : Nat) : ChunkOutcome :=
  let endIndex := min (startIndex + chunkSize) asins.length
  let r := loopChunk asins oracle (endIndex - startIndex) startIndex accInit
  match r.2 with
  | some k => ⟨r.1.data, r.1.processed, r.1.withData, k, some k, r.1.fetches, r.1.delays⟩
  | none => ⟨r.1.data, r.1.processed, r.1.withData, endIndex - 1, none, r.1.fetches, r.1.delays⟩

/-- Position `j` halts the loop: its identifier is non-blank and its fetch
returns a document classified as a captcha page. -/
def haltsAt (asins : List String) (oracle : Nat → FetchOutcome) (j : Nat) : Bool :=
  (pyStrip (asins.getD j "") != "") &&
    match oracle j with
    | .response doc => is_captcha_page doc
    | .netError => false

/-- Position `j` is counted in `products_processed`: non-blank identifier
whose fetch returns a non-captcha document. -/
def attemptedAt (asins : List String) (oracle : Nat → FetchOutcome) (j : Nat) : Bool :=
  (pyStrip (asins.getD j "") != "") &&
    match oracle j with
    | .response doc => !is_captcha_page doc
    | .netError => false

/-- Number of attempted positions among `i, i+1, ..., i+n-1`. -/
def countAttempted (asins : List String) (oracle : Nat → FetchOutcome) :
    Nat → Nat → Nat
  | _, 0 => 0
  | i, n + 1 =>
    (if attemptedAt asins oracle i then 1 else 0) + countAttempted asins oracle (i + 1) n

/-- How many loop iterations the chunk performed: up to and including the
halt position on a captcha halt, the whole `range(start, end_index)`
otherwise. -/
def positionsIterated (chunkSize : Nat) (asins : List String) (startIndex : Nat)
    (out : ChunkOutcome) : Nat :=
  match out.halt with
  | some k => k + 1 - startIndex
  | none => min (startIndex + chunkSize) asins.length - startIndex

/-- Line 241 of the main block: the identifier list actually processed,
`[asin for asin in all_values[START_ROW-1:] if asin.strip()]` — blank
entries are filtered out before any processing. -/
def mainAsins (allValues : List String) (startRow : Nat) : List String :=
  (allValues.drop (startRow - 1)).filter (fun a => pyStrip a != "")

/-- Python `list.index` (line 277): position of the first occurrence. -/
def listIndexOf (a : String) : List String → Nat
  | [] => 0
  | b :: rest => if b = a then 0 else listIndexOf a rest + 1

/-- Observable effects of one invocation of the main execution block:
positions fetched, the checkpoint written (`none` when `save_progress` was
never reached), the `(row, text)` cell writes to the sheet, and whether the
"All ASINs have been processed!" early exit was taken. -/
structure RunResult where
  fetches : List Nat
  saved : Option Nat
  sinkWrites : List (Nat × String)
  doneExit : Bool
deriving DecidableEq, Repr

/-- The main execution block (lines 233-287) for one invocation, starting
from checkpoint `checkpoint`: read the column, raise if too short (line 239,
modelled as a no-effect result), filter blanks (line 241), raise if empty
(line 243), exit before any fetch when `start_index >= total_asins`
(lines 258-260), else run `process_chunk`, save its stop index, and write
each result to row `asins.index(asin) + START_ROW` (line 277). -/
def mainRun (chunkSize startRow : Nat) (checkpoint : Nat)
    (allValues : List String) (oracle : Nat → FetchOutcome) : RunResult :=
  if allValues.length < startRow then ⟨[], none, [], false⟩
  else
    let asins := mainAsins allValues startRow
    if asins.isEmpty then ⟨[], none, [], false⟩
    else if checkpoint ≥ asins.length then ⟨[], none, [], true⟩
    else
      let out := process_chunk chunkSize asins oracle checkpoint
      ⟨out.fetches, some out.stop,
        out.data.map (fun e => (listIndexOf e.1 asins + startRow, e.2)), false⟩

/-- `n` successive invocations of the program, each loading the checkpoint
the previous one saved (the initial run loads `cp`). Returns the final
checkpoint value and the concatenated list of fetched positions. -/
def simulate (chunkSize startRow : Nat) (allValues : List String)
    (oracle : Nat → FetchOutcome) : Nat → Nat → Nat × List Nat
  | 0, cp => (cp, [])
  | n + 1, cp =>
    let res := mainRun chunkSize startRow cp allValues oracle
    let cp1 := res.saved.getD cp
    let rest := simulate chunkSize startRow allValues oracle n cp1
    (rest.1, res.fetches ++ rest.2)

/-- A normal product page with no social-proof element. -/
def plainDoc : Soup := ⟨false, "product page", none, []⟩

/-- The bought/month element carried by `captchaDoc`. -/
def captchaQualElem : Element :=
  ⟨"span", "9 bought in past month", some "9 bought in past month",
    "9 bought in past month"⟩

/-- A captcha challenge page that also contains a bought/month element. -/
def captchaDoc : Soup :=
  ⟨true, "Robot Check", some captchaQualElem, [captchaQualElem]⟩

/-- A product page whose primary selector hits the social-proof element. -/
def foundDoc : Soup :=
  ⟨false, "product page",
    some ⟨"span", "7 bought in past month", some "7 bought in past month",
      "7 bought in past month"⟩,
    []⟩

/-- Every fetch returns a plain page. -/
def plainOracle : Nat → FetchOutcome := fun _ => .response plainDoc

/-- Every fetch raises a network exception. -/
def errOracle : Nat → FetchOutcome := fun _ => .netError

/-- Every fetch returns the page with the social-proof element. -/
def foundOracle : Nat → FetchOutcome := fun _ => .response foundDoc

/-- Position 1 returns the captcha page, every other position a plain page. -/
def captchaAt1Oracle : Nat → FetchOutcome
  | 1 => .response captchaDoc
  | _ => .response plainDoc

/-- A primary-selector element whose text lacks "month". -/
def offTopicElem : Element := ⟨"span", "unrelated tagline", none, "unrelated tagline"⟩

/-- A generic element that does not satisfy the fallback test. -/
def nonQualElem : Element := ⟨"div", "shipping info", some "shipping info", "shipping info"⟩

/-- The first qualifying generic element of `fallbackDoc`. -/
def qualElemA : Element :=
  ⟨"span", "Over 500 bought in past month", some "Over 500 bought in past month",
    "Over 500 bought in past month"⟩

/-- A later qualifying generic element of `fallbackDoc`. -/
def qualElemB : Element :=
  ⟨"p", "70 bought in past month", some "70 bought in past month",
    "70 bought in past month"⟩

/-- A page whose primary-selector element exists but lacks "month", while a
fallback candidate is present. -/
def rejectDoc : Soup :=
  ⟨false, "product page", some offTopicElem, [nonQualElem, qualElemA]⟩

/-- A page with no primary-selector element and several generic elements,
two of which qualify. -/
def fallbackDoc : Soup :=
  ⟨false, "product page", none, [nonQualElem, qualElemA, qualElemB]⟩

/-! ### Helper lemmas -/

/-- A captcha page extracts to `challenge`. -/
theorem extract_of_captcha (s : Soup) (h : is_captcha_page s = true) :
    extract s = ExtractionOutcome.challenge := by
  simp [extract, h]

/-- `extract` yields `challenge` exactly on captcha pages. -/
theorem extract_challenge_iff (s : Soup) :
    extract s = ExtractionOutcome.challenge ↔ is_captcha_page s = true := by
  constructor
  · intro h
    by_contra hc
    simp only [Bool.not_eq_true] at hc
    simp only [extract, hc, Bool.false_eq_true, if_false] at h
    cases hfb : findBought s <;> simp [hfb] at h
  · exact extract_of_captcha s

/-- The fallback for-loop is `List.find?` with the qualifying predicate:
it returns the first qualifying element in document order. -/
theorem fallbackScan_eq_find (l : List Element) :
    fallbackScan l = l.find? qualifies := by
  induction l with
  | nil => rfl
  | cons e rest ih =>
    by_cases hq : qualifies e = true
    · simp [fallbackScan, hq, List.find?]
    · simp only [Bool.not_eq_true] at hq
      simp [fallbackScan, hq, List.find?, ih]

/-- Master invariant of the chunk loop: running `fuel` iterations from `i`
extends `data`/`fetches` by suffixes `d`/`f` and adds `p`/`w` to the
counters, where every appended result and fetched position is non-blank,
`d.length = w ≤ p`, each response fetch contributes exactly one delay, and
`p` is bounded by the positions examined. -/
theorem loopChunk_spec (asins : List String) (oracle : Nat → FetchOutcome) :
    ∀ (fuel i : Nat) (acc : ChunkAcc),
      ∃ d p w f,
        (loopChunk asins oracle fuel i acc).1.data = acc.data ++ d ∧
        (loopChunk asins oracle fuel i acc).1.processed = acc.processed + p ∧
        (loopChunk asins oracle fuel i acc).1.withData = acc.withData + w ∧
        (loopChunk asins oracle fuel i acc).1.fetches = acc.fetches ++ f ∧
        (loopChunk asins oracle fuel i acc).1.delays =
          acc.delays + (f.filter (fun j => isResponse (oracle j))).length ∧
        d.length = w ∧ w ≤ p ∧
        (∀ x ∈ d, pyStrip x.1 ≠ "") ∧
        (∀ j ∈ f, pyStrip (asins.getD j "") ≠ "") ∧
        (∀ k, (loopChunk asins oracle fuel i acc).2 = some k →
          i ≤ k ∧ k < i + fuel ∧ p ≤ k - i) ∧
        ((loopChunk asins oracle fuel i acc).2 = none → p ≤ fuel) := by
  intro fuel
  induction fuel with
  | zero =>
    intro i acc
    refine ⟨[], 0, 0, [], ?_⟩
    simp [loopChunk]
  | succ n ih =>
    intro i acc
    by_cases hb : pyStrip (asins.getD i "") = ""
    · have hstep : loopChunk asins oracle (n + 1) i acc
          = loopChunk asins oracle n (i + 1) acc := by
        simp only [loopChunk]
        exact if_pos hb
      obtain ⟨d, p, w, f, h1, h2, h3, h4, h5, h6, h7, h8, h9, h10, h11⟩ := ih (i + 1) acc
      refine ⟨d, p, w, f, ?_⟩
      rw [hstep]
      refine ⟨h1, h2, h3, h4, h5, h6, h7, h8, h9, ?_, ?_⟩
      · intro k hk
        have := h10 k hk
        omega
      · intro hk
        have := h11 hk
        omega
    · cases ho : oracle i with
      | netError =>
        have hstep : loopChunk asins oracle (n + 1) i acc
            = loopChunk asins oracle n (i + 1)
                { acc with fetches := acc.fetches ++ [i] } := by
          simp only [loopChunk, ho]
          rw [if_neg hb]
        obtain ⟨d, p, w, f, h1, h2, h3, h4, h5, h6, h7, h8, h9, h10, h11⟩ :=
          ih (i + 1) { acc with fetches := acc.fetches ++ [i] }
        dsimp only at h1 h2 h3 h4 h5
        refine ⟨d, p, w, i :: f, ?_⟩
        rw [hstep]
        refine ⟨h1, h2, h3, ?_, ?_, h6, h7, h8, ?_, ?_, ?_⟩
        · rw [h4, List.append_assoc, List.singleton_append]
        · rw [h5]
          simp only [List.filter_cons, ho, isResponse, Bool.false_eq_true, if_false]
        · intro j hj
          rcases List.mem_cons.mp hj with hj | hj
          · subst hj; exact hb
          · exact h9 j hj
        · intro k hk
          have := h10 k hk
          omega
        · intro hk
          have := h11 hk
          omega
      | response doc =>
        cases hx : extract doc with
        | challenge =>
          have hstep : loopChunk asins oracle (n + 1) i acc
              = ({ acc with fetches := acc.fetches ++ [i], delays := acc.delays + 1 },
                  some i) := by
            simp only [loopChunk, ho, hx]
            rw [if_neg hb]
          refine ⟨[], 0, 0, [i], ?_⟩
          rw [hstep]
          refine ⟨by simp, by simp, by simp, by simp, ?_, by simp, Nat.le_refl 0,
            by simp, ?_, ?_, ?_⟩
          · simp [List.filter_cons, ho, isResponse]
          · intro j hj
            rcases List.mem_cons.mp hj with hj | hj
            · subst hj; exact hb
            · simp at hj
          · intro k hk
            simp only [Option.some.injEq] at hk
            omega
          · intro hk
            simp at hk
        | found t =>
          have hstep : loopChunk asins oracle (n + 1) i acc
              = loopChunk asins oracle n (i + 1)
                  { acc with
                      data := acc.data ++ [(asins.getD i "", t)],
                      processed := acc.processed + 1,
                      withData := acc.withData + 1,
                      fetches := acc.fetches ++ [i], delays := acc.delays + 1 } := by
            simp only [loopChunk, ho, hx]
            rw [if_neg hb]
          obtain ⟨d, p, w, f, h1, h2, h3, h4, h5, h6, h7, h8, h9, h10, h11⟩ :=
            ih (i + 1)
              { acc with
                  data := acc.data ++ [(asins.getD i "", t)],
                  processed := acc.processed + 1,
                  withData := acc.withData + 1,
                  fetches := acc.fetches ++ [i], delays := acc.delays + 1 }
          dsimp only at h1 h2 h3 h4 h5
          refine ⟨(asins.getD i "", t) :: d, p + 1, w + 1, i :: f, ?_⟩
          rw [hstep]
          refine ⟨?_, by omega, by omega, ?_, ?_, by simp [h6], by omega, ?_, ?_, ?_, ?_⟩
          · rw [h1, List.append_assoc, List.singleton_append]
          · rw [h4, List.append_assoc, List.singleton_append]
          · rw [h5]
            simp only [List.filter_cons, ho, isResponse, if_true, List.length_cons]
            omega
          · intro x hx2
            rcases List.mem_cons.mp hx2 with hx2 | hx2
            · subst hx2; exact hb
            · exact h8 x hx2
          · intro j hj
            rcases List.mem_cons.mp hj with hj | hj
            · subst hj; exact hb
            · exact h9 j hj
          · intro k hk
            have := h10 k hk
            omega
          · intro hk
            have := h11 hk
            omega
        | notFound =>
          have hstep : loopChunk asins oracle (n + 1) i acc
              = loopChunk asins oracle n (i + 1)
                  { acc with
                      processed := acc.processed + 1,
                      fetches := acc.fetches ++ [i], delays := acc.delays + 1 } := by
            simp only [loopChunk, ho, hx]
            rw [if_neg hb]
          obtain ⟨d, p, w, f, h1, h2, h3, h4, h5, h6, h7, h8, h9, h10, h11⟩ :=
            ih (i + 1)
              { acc with
                  processed := acc.processed + 1,
                  fetches := acc.fetches ++ [i], delays := acc.delays + 1 }
          dsimp only at h1 h2 h3 h4 h5
          refine ⟨d, p + 1, w, i :: f, ?_⟩
          rw [hstep]
          refine ⟨h1, by omega, h3, ?_, ?_, h6, by omega, h8, ?_, ?_, ?_⟩
          · rw [h4, List.append_assoc, List.singleton_append]
          · rw [h5]
            simp only [List.filter_cons, ho, isResponse, if_true, List.length_cons]
            omega
          · intro j hj
            rcases List.mem_cons.mp hj with hj | hj
            · subst hj; exact hb
            · exact h9 j hj
          · intro k hk
            have := h10 k hk
            omega
          · intro hk
            have := h11 hk
            omega

/-- If no position in `[i, k)` halts the loop and position `k` does (within
the iteration budget), the loop stops at `k` and `products_processed` has
counted exactly the attempted positions of `[i, k)` — position `k` itself is
not counted. -/
theorem loopChunk_halt (asins : List String) (oracle : Nat → FetchOutcome) (k : Nat) :
    ∀ (fuel i : Nat) (acc : ChunkAcc), i ≤ k → k < i + fuel →
      (∀ j, i ≤ j → j < k → haltsAt asins oracle j = false) →
      haltsAt asins oracle k = true →
      (loopChunk asins oracle fuel i acc).2 = some k ∧
        (loopChunk asins oracle fuel i acc).1.processed
          = acc.processed + countAttempted asins oracle i (k - i) := by
  intro fuel
  induction fuel with
  | zero =>
    intro i acc h1 h2 _ _
    exfalso
    omega
  | succ n ih =>
    intro i acc hik hkf hfirst hhalt
    rcases Nat.eq_or_lt_of_le hik with heq | hlt
    · subst heq
      obtain ⟨hnb', hc'⟩ := Bool.and_eq_true_iff.mp hhalt
      have hnb : ¬ pyStrip (asins.getD i "") = "" := bne_iff_ne.mp hnb'
      cases ho : oracle i with
      | netError =>
        rw [ho] at hc'
        simp at hc'
      | response doc =>
        rw [ho] at hc'
        have hstep : loopChunk asins oracle (n + 1) i acc
            = ({ acc with fetches := acc.fetches ++ [i], delays := acc.delays + 1 },
                some i) := by
          simp only [loopChunk, ho, extract_of_captcha doc hc']
          rw [if_neg hnb]
        rw [hstep]
        exact ⟨rfl, by simp [Nat.sub_self, countAttempted]⟩
    · have hfi : haltsAt asins oracle i = false := hfirst i (Nat.le_refl i) hlt
      have hcount : k - i = (k - (i + 1)) + 1 := by omega
      have hfirst' : ∀ j, i + 1 ≤ j → j < k → haltsAt asins oracle j = false :=
        fun j hj1 hj2 => hfirst j (by omega) hj2
      by_cases hb : pyStrip (asins.getD i "") = ""
      · have hstep : loopChunk asins oracle (n + 1) i acc
            = loopChunk asins oracle n (i + 1) acc := by
          simp only [loopChunk]
          exact if_pos hb
        obtain ⟨ihA, ihB⟩ := ih (i + 1) acc hlt (by omega) hfirst' hhalt
        have hatt : attemptedAt asins oracle i = false := by
          simp only [attemptedAt, hb]
          simp
        rw [hstep]
        refine ⟨ihA, ?_⟩
        rw [ihB, hcount]
        simp [countAttempted, hatt]
      · have hnbt : (pyStrip (asins.getD i "") != "") = true := bne_iff_ne.mpr hb
        cases ho : oracle i with
        | netError =>
          have hstep : loopChunk asins oracle (n + 1) i acc
              = loopChunk asins oracle n (i + 1)
                  { acc with fetches := acc.fetches ++ [i] } := by
            simp only [loopChunk, ho]
            rw [if_neg hb]
          obtain ⟨ihA, ihB⟩ :=
            ih (i + 1) { acc with fetches := acc.fetches ++ [i] } hlt (by omega)
              hfirst' hhalt
          have hatt : attemptedAt asins oracle i = false := by
            simp only [attemptedAt, ho]
            simp
          dsimp only at ihB
          rw [hstep]
          refine ⟨ihA, ?_⟩
          rw [ihB, hcount]
          simp [countAttempted, hatt]
        | response doc =>
          have hcap : is_captcha_page doc = false := by
            simp only [haltsAt, ho, hnbt, Bool.true_and] at hfi
            exact hfi
          have hatt : attemptedAt asins oracle i = true := by
            simp only [attemptedAt, ho, hnbt, hcap]
            simp
          cases hx : extract doc with
          | challenge =>
            exfalso
            have hc2 := (extract_challenge_iff doc).mp hx
            rw [hc2] at hcap
            exact Bool.noConfusion hcap
          | found t =>
            have hstep : loopChunk asins oracle (n + 1) i acc
                = loopChunk asins oracle n (i + 1)
                    { acc with
                        data := acc.data ++ [(asins.getD i "", t)],
                        processed := acc.processed + 1,
                        withData := acc.withData + 1,
                        fetches := acc.fetches ++ [i], delays := acc.delays + 1 } := by
              simp only [loopChunk, ho, hx]
              rw [if_neg hb]
            obtain ⟨ihA, ihB⟩ :=
              ih (i + 1)
                { acc with
                    data := acc.data ++ [(asins.getD i "", t)],
                    processed := acc.processed + 1,
                    withData := acc.withData + 1,
                    fetches := acc.fetches ++ [i], delays := acc.delays + 1 }
                hlt (by omega) hfirst' hhalt
            dsimp only at ihB
            rw [hstep]
            refine ⟨ihA, ?_⟩
            rw [ihB, hcount]
            simp only [countAttempted, hatt, if_true]
            omega
          | notFound =>
            have hstep : loopChunk asins oracle (n + 1) i acc
                = loopChunk asins oracle n (i + 1)
                    { acc with
                        processed := acc.processed + 1,
                        fetches := acc.fetches ++ [i], delays := acc.delays + 1 } := by
              simp only [loopChunk, ho, hx]
              rw [if_neg hb]
            obtain ⟨ihA, ihB⟩ :=
              ih (i + 1)
                { acc with
                    processed := acc.processed + 1,
                    fetches := acc.fetches ++ [i], delays := acc.delays + 1 }
                hlt (by omega) hfirst' hhalt
            dsimp only at ihB
            rw [hstep]
            refine ⟨ihA, ?_⟩
            rw [ihB, hcount]
            simp only [countAttempted, hatt, if_true]
            omega

/-- When the loop has at least one iteration left and the identifier at the
current position is non-blank, the first fetch it issues is at that
position. -/
theorem loopChunk_fetch_head (asins : List String) (oracle : Nat → FetchOutcome)
    (n i : Nat) (acc : ChunkAcc) (hnb : ¬ pyStrip (asins.getD i "") = "") :
    ∃ rest, (loopChunk asins oracle (n + 1) i acc).1.fetches
      = acc.fetches ++ i :: rest := by
  cases ho : oracle i with
  | netError =>
    have hstep : loopChunk asins oracle (n + 1) i acc
        = loopChunk asins oracle n (i + 1)
            { acc with fetches := acc.fetches ++ [i] } := by
      simp only [loopChunk, ho]
      rw [if_neg hnb]
    obtain ⟨_, _, _, f, _, _, _, h4, _⟩ :=
      loopChunk_spec asins oracle n (i + 1) { acc with fetches := acc.fetches ++ [i] }
    dsimp only at h4
    exact ⟨f, by rw [hstep, h4, List.append_assoc, List.singleton_append]⟩
  | response doc =>
    cases hx : extract doc with
    | challenge =>
      have hstep : loopChunk asins oracle (n + 1) i acc
          = ({ acc with fetches := acc.fetches ++ [i], delays := acc.delays + 1 },
              some i) := by
        simp only [loopChunk, ho, hx]
        rw [if_neg hnb]
      exact ⟨[], by rw [hstep]⟩
    | found t =>
      have hstep : loopChunk asins oracle (n + 1) i acc
          = loopChunk asins oracle n (i + 1)
              { acc with
                  data := acc.data ++ [(asins.getD i "", t)],
                  processed := acc.processed + 1,
                  withData := acc.withData + 1,
                  fetches := acc.fetches ++ [i], delays := acc.delays + 1 } := by
        simp only [loopChunk, ho, hx]
        rw [if_neg hnb]
      obtain ⟨_, _, _, f, _, _, _, h4, _⟩ :=
        loopChunk_spec asins oracle n (i + 1)
          { acc with
              data := acc.data ++ [(asins.getD i "", t)],
              processed := acc.processed + 1,
              withData := acc.withData + 1,
              fetches := acc.fetches ++ [i], delays := acc.delays + 1 }
      dsimp only at h4
      exact ⟨f, by rw [hstep, h4, List.append_assoc, List.singleton_append]⟩
    | notFound =>
      have hstep : loopChunk asins oracle (n + 1) i acc
          = loopChunk asins oracle n (i + 1)
              { acc with
                  processed := acc.processed + 1,
                  fetches := acc.fetches ++ [i], delays := acc.delays + 1 } := by
        simp only [loopChunk, ho, hx]
        rw [if_neg hnb]
      obtain ⟨_, _, _, f, _, _, _, h4, _⟩ :=
        loopChunk_spec asins oracle n (i + 1)
          { acc with
              processed := acc.processed + 1,
              fetches := acc.fetches ++ [i], delays := acc.delays + 1 }
      dsimp only at h4
      exact ⟨f, by rw [hstep, h4, List.append_assoc, List.singleton_append]⟩


/-- `products_processed` is exactly the number of attempted positions among
the positions the loop iterated: up to and including the halt position on a
captcha halt (the halt position itself is a captcha response, hence never
attempted), all `fuel` positions otherwise. Blank and error positions lie in
the counted range but `attemptedAt` is false on them. -/
theorem loopChunk_processed_count (asins : List String) (oracle : Nat → FetchOutcome) :
    ∀ (fuel i : Nat) (acc : ChunkAcc),
      (loopChunk asins oracle fuel i acc).1.processed
        = acc.processed +
            countAttempted asins oracle i
              (match (loopChunk asins oracle fuel i acc).2 with
               | some k => k + 1 - i
               | none => fuel) := by
  intro fuel
  induction fuel with
  | zero =>
    intro i acc
    simp [loopChunk, countAttempted]
  | succ n ih =>
    intro i acc
    by_cases hb : pyStrip (asins.getD i "") = ""
    · have hatt : attemptedAt asins oracle i = false := by
        simp only [attemptedAt, hb]
        simp
      have hstep : loopChunk asins oracle (n + 1) i acc
          = loopChunk asins oracle n (i + 1) acc := by
        simp only [loopChunk]
        exact if_pos hb
      rw [hstep, ih (i + 1) acc]
      cases hr : (loopChunk asins oracle n (i + 1) acc).2 with
      | some k =>
        obtain ⟨_, _, _, _, _, _, _, _, _, _, _, _, _, h10, _⟩ :=
          loopChunk_spec asins oracle n (i + 1) acc
        have hk := h10 k hr
        simp only [hr]
        have hm : k + 1 - i = (k + 1 - (i + 1)) + 1 := by omega
        rw [hm]
        simp [countAttempted, hatt]
      | none =>
        simp only [hr]
        simp [countAttempted, hatt]
    · have hnbt : (pyStrip (asins.getD i "") != "") = true := bne_iff_ne.mpr hb
      cases ho : oracle i with
      | netError =>
        have hatt : attemptedAt asins oracle i = false := by
          simp only [attemptedAt, ho]
          simp
        have hstep : loopChunk asins oracle (n + 1) i acc
            = loopChunk asins oracle n (i + 1)
                { acc with fetches := acc.fetches ++ [i] } := by
          simp only [loopChunk, ho]
          rw [if_neg hb]
        rw [hstep, ih (i + 1) { acc with fetches := acc.fetches ++ [i] }]
        dsimp only
        cases hr : (loopChunk asins oracle n (i + 1)
            { acc with fetches := acc.fetches ++ [i] }).2 with
        | some k =>
          obtain ⟨_, _, _, _, _, _, _, _, _, _, _, _, _, h10, _⟩ :=
            loopChunk_spec asins oracle n (i + 1) { acc with fetches := acc.fetches ++ [i] }
          have hk := h10 k hr
          simp only [hr]
          have hm : k + 1 - i = (k + 1 - (i + 1)) + 1 := by omega
          rw [hm]
          simp [countAttempted, hatt]
        | none =>
          simp only [hr]
          simp [countAttempted, hatt]
      | response doc =>
        cases hx : extract doc with
        | challenge =>
          have hcap : is_captcha_page doc = true := (extract_challenge_iff doc).mp hx
          have hatt : attemptedAt asins oracle i = false := by
            simp only [attemptedAt, ho, hcap]
            simp
          have hstep : loopChunk asins oracle (n + 1) i acc
              = ({ acc with fetches := acc.fetches ++ [i], delays := acc.delays + 1 },
                  some i) := by
            simp only [loopChunk, ho, hx]
            rw [if_neg hb]
          rw [hstep]
          dsimp only
          have hm : i + 1 - i = 0 + 1 := by omega
          rw [hm]
          simp [countAttempted, hatt]
        | found t =>
          have hcap : is_captcha_page doc = false := by
            cases hcapb : is_captcha_page doc
            · rfl
            · exfalso
              rw [extract_of_captcha doc hcapb] at hx
              exact ExtractionOutcome.noConfusion hx
          have hatt : attemptedAt asins oracle i = true := by
            simp only [attemptedAt, ho, hnbt, hcap]
            simp
          have hstep : loopChunk asins oracle (n + 1) i acc
              = loopChunk asins oracle n (i + 1)
                  { acc with
                      data := acc.data ++ [(asins.getD i "", t)],
                      processed := acc.processed + 1,
                      withData := acc.withData + 1,
                      fetches := acc.fetches ++ [i], delays := acc.delays + 1 } := by
            simp only [loopChunk, ho, hx]
            rw [if_neg hb]
          rw [hstep, ih (i + 1)
            { acc with
                data := acc.data ++ [(asins.getD i "", t)],
                processed := acc.processed + 1,
                withData := acc.withData + 1,
                fetches := acc.fetches ++ [i], delays := acc.delays + 1 }]
          dsimp only
          cases hr : (loopChunk asins oracle n (i + 1)
              { acc with
                  data := acc.data ++ [(asins.getD i "", t)],
                  processed := acc.processed + 1,
                  withData := acc.withData + 1,
                  fetches := acc.fetches ++ [i], delays := acc.delays + 1 }).2 with
          | some k =>
            obtain ⟨_, _, _, _, _, _, _, _, _, _, _, _, _, h10, _⟩ :=
              loopChunk_spec asins oracle n (i + 1)
                { acc with
                    data := acc.data ++ [(asins.getD i "", t)],
                    processed := acc.processed + 1,
                    withData := acc.withData + 1,
                    fetches := acc.fetches ++ [i], delays := acc.delays + 1 }
            have hk := h10 k hr
            simp only [hr]
            have hm : k + 1 - i = (k + 1 - (i + 1)) + 1 := by omega
            rw [hm]
            simp only [countAttempted, hatt, if_true]
            omega
          | none =>
            simp only [hr]
            simp only [countAttempted, hatt, if_true]
            omega
        | notFound =>
          have hcap : is_captcha_page doc = false := by
            cases hcapb : is_captcha_page doc
            · rfl
            · exfalso
              rw [extract_of_captcha doc hcapb] at hx
              exact ExtractionOutcome.noConfusion hx
          have hatt : attemptedAt asins oracle i = true := by
            simp only [attemptedAt, ho, hnbt, hcap]
            simp
          have hstep : loopChunk asins oracle (n + 1) i acc
              = loopChunk asins oracle n (i + 1)
                  { acc with
                      processed := acc.processed + 1,
                      fetches := acc.fetches ++ [i], delays := acc.delays + 1 } := by
            simp only [loopChunk, ho, hx]
            rw [if_neg hb]
          rw [hstep, ih (i + 1)
            { acc with
                processed := acc.processed + 1,
                fetches := acc.fetches ++ [i], delays := acc.delays + 1 }]
          dsimp only
          cases hr : (loopChunk asins oracle n (i + 1)
              { acc with
                  processed := acc.processed + 1,
                  fetches := acc.fetches ++ [i], delays := acc.delays + 1 }).2 with
          | some k =>
            obtain ⟨_, _, _, _, _, _, _, _, _, _, _, _, _, h10, _⟩ :=
              loopChunk_spec asins oracle n (i + 1)
                { acc with
                    processed := acc.processed + 1,
                    fetches := acc.fetches ++ [i], delays := acc.delays + 1 }
            have hk := h10 k hr
            simp only [hr]
            have hm : k + 1 - i = (k + 1 - (i + 1)) + 1 := by omega
            rw [hm]
            simp only [countAttempted, hatt, if_true]
            omega
          | none =>
            simp only [hr]
            simp only [countAttempted, hatt, if_true]
            omega

/-- `process_chunk` unpacked: every field comes from the loop run with fuel
`end_index - start_index`, and the stop index is the halt position or
`end_index - 1`. -/
theorem process_chunk_eq (c : Nat) (asins : List String)
    (oracle : Nat → FetchOutcome) (start : Nat) :
    process_chunk c asins oracle start
      = { data :=
            (loopChunk asins oracle (min (start + c) asins.length - start) start accInit).1.data,
          processed :=
            (loopChunk asins oracle (min (start + c) asins.length - start) start accInit).1.processed,
          withData :=
            (loopChunk asins oracle (min (start + c) asins.length - start) start accInit).1.withData,
          stop :=
            match (loopChunk asins oracle (min (start + c) asins.length - start) start accInit).2 with
            | some k => k
            | none => min (start + c) asins.length - 1,
          halt := (loopChunk asins oracle (min (start + c) asins.length - start) start accInit).2,
          fetches :=
            (loopChunk asins oracle (min (start + c) asins.length - start) start accInit).1.fetches,
          delays :=
            (loopChunk asins oracle (min (start + c) asins.length - start) start accInit).1.delays } := by
  simp only [process_chunk]
  cases (loopChunk asins oracle (min (start + c) asins.length - start) start accInit).2 <;> rfl

/-! ### Claim theorems -/

/-- C4 (counterexample): the claim says `load_progress` returns 0 when the
existing backing record is unreadable or corrupt; in the code `json.load`
raises on a corrupt file and `load_progress` does not catch it, so the call
raises instead of returning 0. -/
theorem load_progress_corrupt_counterexample :
    load_progress FileState.corrupt = LoadResult.raises ∧
      load_progress FileState.corrupt ≠ LoadResult.ok 0 := by
  exact ⟨rfl, by decide⟩

/-- C4 (amended): `load_progress` returns the saved index when a valid
record exists, and 0 when no checkpoint file exists or when the record
parses but lacks the index field; a file that exists but cannot be parsed
makes the call raise, aborting the run via the top-level handler. -/
theorem load_progress_amended :
    load_progress FileState.absent = LoadResult.ok 0 ∧
      load_progress (FileState.record none) = LoadResult.ok 0 ∧
      (∀ n : Nat, load_progress (FileState.record (some n)) = LoadResult.ok n) ∧
      load_progress FileState.corrupt = LoadResult.raises :=
  ⟨rfl, rfl, fun _ => rfl, rfl⟩

/-- C4 (witness): the amended behaviour at the concrete index 7. -/
theorem load_progress_amended_witness :
    load_progress (FileState.record (some 7)) = LoadResult.ok 7 :=
  load_progress_amended.2.2.1 7

/-- C5: challenge detection is evaluated before any extraction step — for
every document classified as a challenge page, the outcome is `challenge`,
whatever elements the page contains, and no `found` result is produced. -/
theorem challenge_short_circuit (s : Soup) (h : is_captcha_page s = true) :
    extract s = ExtractionOutcome.challenge :=
  extract_of_captcha s h

/-- C5 (witness): `captchaDoc` carries a bought/month element in both the
primary slot and the generic elements, yet extraction yields `challenge`. -/
theorem challenge_short_circuit_witness :
    is_captcha_page captchaDoc = true ∧
      qualifies captchaQualElem = true ∧
      fallbackScan (findAllGeneric captchaDoc) = some captchaQualElem ∧
      extract captchaDoc = ExtractionOutcome.challenge :=
  ⟨by decide, by decide, by decide, challenge_short_circuit captchaDoc (by decide)⟩

/-- C6: on a non-challenge document whose primary selector hits an element,
that element is the extraction result exactly when its text contains
"month" case-insensitively; otherwise it is rejected and the fallback scan
decides the outcome. -/
theorem primary_month_gate (s : Soup) (e : Element)
    (hc : is_captcha_page s = false) (hp : s.primary = some e) :
    extract s =
      (if strContains (pyLower e.text) "month" then ExtractionOutcome.found e.stripped
       else
         match fallbackScan (findAllGeneric s) with
         | some e2 => ExtractionOutcome.found e2.stripped
         | none => ExtractionOutcome.notFound) := by
  simp only [extract, hc, Bool.false_eq_true, if_false, findBought, primaryMatch, hp]
  by_cases hm : strContains (pyLower e.text) "month" = true
  · rw [if_pos hm, if_pos hm]
  · rw [if_neg hm, if_neg hm]

/-- C6 (witness): on `foundDoc` the primary element's text contains "month"
and is accepted; on `rejectDoc` the primary element exists but lacks
"month", so the fallback scan result decides. -/
theorem primary_month_gate_witness :
    extract foundDoc = ExtractionOutcome.found "7 bought in past month" ∧
      extract rejectDoc = ExtractionOutcome.found "Over 500 bought in past month" :=
  ⟨(primary_month_gate foundDoc
      ⟨"span", "7 bought in past month", some "7 bought in past month",
        "7 bought in past month"⟩ (by decide) rfl).trans (by decide),
    (primary_month_gate rejectDoc offTopicElem (by decide) rfl).trans (by decide)⟩

/-- C7: on a non-challenge document where the primary match yields nothing,
the outcome is decided by the first generic element (in document order)
whose direct text contains both "bought" and "month" case-insensitively —
`List.find?` semantics, so no later candidate replaces an earlier match —
and is `notFound` when no element qualifies. -/
theorem fallback_first_match (s : Soup)
    (hc : is_captcha_page s = false) (hp : primaryMatch s = none) :
    extract s =
      (match (findAllGeneric s).find? qualifies with
       | some e => ExtractionOutcome.found e.stripped
       | none => ExtractionOutcome.notFound) := by
  simp only [extract, hc, Bool.false_eq_true, if_false, findBought, hp]
  rw [fallbackScan_eq_find]

/-- C7 (witness): on `fallbackDoc` the first qualifying element (not the
later one) is returned; on `plainDoc`, which has no qualifying element, the
outcome is `notFound`. -/
theorem fallback_first_match_witness :
    extract fallbackDoc = ExtractionOutcome.found "Over 500 bought in past month" ∧
      extract plainDoc = ExtractionOutcome.notFound :=
  ⟨(fallback_first_match fallbackDoc (by decide) (by decide)).trans (by decide),
    (fallback_first_match plainDoc (by decide) (by decide)).trans (by decide)⟩

/-- C8 (counterexample): the claim says the inter-request delay is applied
after every fetch regardless of outcome, including fetches that end in a
network exception; in the code `time.sleep` sits after `session.get`, so a
raising fetch jumps to `except` and skips the delay: one fetch, zero
delays. -/
theorem delay_skip_counterexample :
    (process_chunk 1 ["A"] errOracle 0).fetches = [0] ∧
      (process_chunk 1 ["A"] errOracle 0).delays = 0 := by decide

/-- C8 (amended): the fixed delay is applied exactly once after every fetch
that returns a response — whatever the response contains, captcha pages
included — while a fetch that raises skips the delay. -/
theorem delay_per_response_amended (c : Nat) (asins : List String)
    (oracle : Nat → FetchOutcome) (start : Nat) :
    (process_chunk c asins oracle start).delays
      = ((process_chunk c asins oracle start).fetches.filter
          (fun j => isResponse (oracle j))).length := by
  obtain ⟨d, p, w, f, h1, h2, h3, h4, h5, h6, h7, h8, h9, h10, h11⟩ :=
    loopChunk_spec asins oracle (min (start + c) asins.length - start) start accInit
  rw [process_chunk_eq]
  dsimp only
  rw [h5, h4]
  simp [accInit]

/-- C8 (witness): the amended delay accounting on a run containing both a
plain response and a captcha halt. -/
theorem delay_per_response_amended_witness :
    (process_chunk 2 ["A", "B"] captchaAt1Oracle 0).delays
      = ((process_chunk 2 ["A", "B"] captchaAt1Oracle 0).fetches.filter
          (fun j => isResponse (captchaAt1Oracle j))).length :=
  delay_per_response_amended 2 ["A", "B"] captchaAt1Oracle 0

/-- C9: for every identifier list, start index and oracle, the chunk
outcome satisfies `data.length = products_with_data ≤ products_processed ≤`
the number of loop iterations performed. -/
theorem chunk_outcome_invariants (c : Nat) (asins : List String)
    (oracle : Nat → FetchOutcome) (start : Nat) :
    (process_chunk c asins oracle start).data.length
        = (process_chunk c asins oracle start).withData ∧
      (process_chunk c asins oracle start).withData
        ≤ (process_chunk c asins oracle start).processed ∧
      (process_chunk c asins oracle start).processed
        ≤ positionsIterated c asins start (process_chunk c asins oracle start) := by
  obtain ⟨d, p, w, f, h1, h2, h3, h4, h5, h6, h7, h8, h9, h10, h11⟩ :=
    loopChunk_spec asins oracle (min (start + c) asins.length - start) start accInit
  rw [process_chunk_eq]
  dsimp only [positionsIterated]
  cases hr : (loopChunk asins oracle (min (start + c) asins.length - start) start accInit).2 with
  | some k =>
    have hb := h10 k hr
    simp only [hr]
    rw [h1, h2, h3]
    simp only [accInit, List.nil_append, Nat.zero_add]
    exact ⟨h6, h7, by omega⟩
  | none =>
    have hb := h11 hr
    simp only [hr]
    rw [h1, h2, h3]
    simp only [accInit, List.nil_append, Nat.zero_add]
    exact ⟨h6, h7, by omega⟩

/-- C9 (witness): the invariants on a concrete captcha-halted run. -/
theorem chunk_outcome_invariants_witness :
    (process_chunk 2 ["A", "B"] captchaAt1Oracle 0).data.length
        = (process_chunk 2 ["A", "B"] captchaAt1Oracle 0).withData ∧
      (process_chunk 2 ["A", "B"] captchaAt1Oracle 0).withData
        ≤ (process_chunk 2 ["A", "B"] captchaAt1Oracle 0).processed ∧
      (process_chunk 2 ["A", "B"] captchaAt1Oracle 0).processed
        ≤ positionsIterated 2 ["A", "B"] 0 (process_chunk 2 ["A", "B"] captchaAt1Oracle 0) :=
  chunk_outcome_invariants 2 ["A", "B"] captchaAt1Oracle 0

/-- C10: when the loaded checkpoint is at least the number of identifiers,
the invocation takes the "All ASINs have been processed!" exit before any
fetch: no position is fetched, no checkpoint is saved, and nothing is
written to the sheet. -/
theorem done_exit_no_effects (c r cp : Nat) (v : List String)
    (oracle : Nat → FetchOutcome) (hr : r ≤ v.length)
    (hne : mainAsins v r ≠ []) (hcp : (mainAsins v r).length ≤ cp) :
    mainRun c r cp v oracle = ⟨[], none, [], true⟩ := by
  have hvr : ¬ (v.length < r) := by omega
  have hE : (mainAsins v r).isEmpty = false := by
    cases h : mainAsins v r with
    | nil => exact absurd h hne
    | cons a l => rfl
  simp only [mainRun, hE, Bool.false_eq_true, if_false]
  rw [if_neg hvr, if_pos hcp]

/-- C10 (witness): with 1 identifier and checkpoint 5 the run only reports
completion. -/
theorem done_exit_no_effects_witness :
    mainRun 130 3 5 ["x", "y", "A"] plainOracle = ⟨[], none, [], true⟩ :=
  done_exit_no_effects 130 3 5 ["x", "y", "A"] plainOracle (by decide) (by decide)
    (by decide)

/-- C3 (counterexample): in the sheet column `["h1", "h2", "", "A1"]` with
data starting at row 3, the blank occupies column position 0 of the data
slice and "A1" sits at sheet row 4; the claim says blanks still occupy a
list position so that checkpoint and sink-row arithmetic account for them,
but the main block filters the blank out (the processed list is just
`["A1"]`) and writes the result to row 3, not row 4. -/
theorem blank_row_counterexample :
    mainAsins ["h1", "h2", "", "A1"] 3 = ["A1"] ∧
      (mainRun 5 3 0 ["h1", "h2", "", "A1"] foundOracle).sinkWrites
        = [(3, "7 bought in past month")] := by decide

/-- C3 (amended): blank identifiers never reach the runner at all — the
main block filters them out of the list before processing, so every
identifier in the processed list, every result row, and every fetched
position is non-blank. `process_chunk` additionally skips a blank entry if
handed one directly: the iteration at a blank position leaves the whole
accumulator unchanged — `products_processed` (attempted_count), results,
fetches and delays — while still consuming exactly one loop position
(advancing from `i` to `i + 1` and using one unit of the iteration budget);
accordingly a blank position is never `attemptedAt`, and across a whole
chunk `products_processed` equals the count of attempted positions over the
iterated range, a range that includes any blank positions without ever
counting them. -/
theorem blanks_amended :
    (∀ (v : List String) (r : Nat), ∀ a ∈ mainAsins v r, pyStrip a ≠ "") ∧
      (∀ (asins : List String) (oracle : Nat → FetchOutcome) (fuel i : Nat)
          (acc : ChunkAcc),
        pyStrip (asins.getD i "") = "" →
          loopChunk asins oracle (fuel + 1) i acc
            = loopChunk asins oracle fuel (i + 1) acc) ∧
      (∀ (asins : List String) (oracle : Nat → FetchOutcome) (j : Nat),
        pyStrip (asins.getD j "") = "" → attemptedAt asins oracle j = false) ∧
      (∀ (c : Nat) (asins : List String) (oracle : Nat → FetchOutcome) (start : Nat),
        (process_chunk c asins oracle start).processed
            = countAttempted asins oracle start
                (positionsIterated c asins start (process_chunk c asins oracle start)) ∧
        (∀ pr ∈ (process_chunk c asins oracle start).data, pyStrip pr.1 ≠ "") ∧
        (∀ i ∈ (process_chunk c asins oracle start).fetches,
          pyStrip (asins.getD i "") ≠ "")) := by
  refine ⟨?_, ?_, ?_, ?_⟩
  · intro v r a ha
    simp only [mainAsins] at ha
    obtain ⟨_, hpred⟩ := List.mem_filter.mp ha
    exact bne_iff_ne.mp hpred
  · intro asins oracle fuel i acc hb
    simp only [loopChunk]
    exact if_pos hb
  · intro asins oracle j hb
    simp only [attemptedAt, hb]
    simp
  · intro c asins oracle start
    obtain ⟨d, p, w, f, h1, h2, h3, h4, h5, h6, h7, h8, h9, h10, h11⟩ :=
      loopChunk_spec asins oracle (min (start + c) asins.length - start) start accInit
    have hpc :=
      loopChunk_processed_count asins oracle (min (start + c) asins.length - start)
        start accInit
    refine ⟨?_, ?_, ?_⟩
    · rw [process_chunk_eq]
      dsimp only [positionsIterated]
      cases hr : (loopChunk asins oracle (min (start + c) asins.length - start)
          start accInit).2 with
      | some k =>
        simp only [hr] at hpc ⊢
        rw [hpc]
        simp [accInit]
      | none =>
        simp only [hr] at hpc ⊢
        rw [hpc]
        simp [accInit]
    · rw [process_chunk_eq]
      dsimp only
      rw [h1]
      simp only [accInit, List.nil_append]
      exact h8
    · rw [process_chunk_eq]
      dsimp only
      rw [h4]
      simp only [accInit, List.nil_append]
      exact h9

/-- C3 (witness): the amended statement at concrete inputs — a filtered
survivor is non-blank; the loop step at the blank position 0 of
`["", "A"]` changes nothing while advancing one position; that position is
not `attemptedAt`; a two-position chunk over `["", "A"]` counts exactly the
attempted positions of its iterated range; and a fetched position is
non-blank. -/
theorem blanks_amended_witness :
    pyStrip "A1" ≠ "" ∧
      loopChunk ["", "A"] plainOracle 2 0 accInit
        = loopChunk ["", "A"] plainOracle 1 1 accInit ∧
      attemptedAt ["", "A"] plainOracle 0 = false ∧
      (process_chunk 2 ["", "A"] plainOracle 0).processed
        = countAttempted ["", "A"] plainOracle 0
            (positionsIterated 2 ["", "A"] 0 (process_chunk 2 ["", "A"] plainOracle 0)) ∧
      pyStrip (["A"].getD 0 "") ≠ "" :=
  ⟨blanks_amended.1 ["", "A1"] 1 "A1" (by decide),
    blanks_amended.2.1 ["", "A"] plainOracle 1 0 accInit (by decide),
    blanks_amended.2.2.1 ["", "A"] plainOracle 0 (by decide),
    (blanks_amended.2.2.2 2 ["", "A"] plainOracle 0).1,
    (blanks_amended.2.2.2 1 ["A"] plainOracle 0).2.2 0 (by decide)⟩

/-- C1 (code bug, evaluated at the failing input): with identifiers
`["A", "B"]`, chunk size 1 and all fetches succeeding without a captcha,
each invocation returns `stop_index = end_index - 1 = 0` and the next run
resumes at the saved index, so three successive runs starting from
checkpoint 0 fetch position 0 three times, never advance the checkpoint,
and never attempt position 1 — the program re-attempts the last identifier
of every chunk instead of attempting each exactly once. -/
theorem checkpoint_reattempt_bug :
    simulate 1 1 ["A", "B"] plainOracle 3 0 = (0, [0, 0, 0]) := by decide

/-- C2: if the loop reaches position `k` (no earlier position halts it) and
the document fetched at `k` is a challenge page, `process_chunk` stops with
`stop_index = k`; `products_processed` counts only the attempted positions
strictly before `k` (so `k` is not counted); and an invocation that loads
the checkpoint saved from this stop index starts fetching again at
position `k`. -/
theorem captcha_halt_resume (c r : Nat) (asins v : List String)
    (oracle : Nat → FetchOutcome) (start k : Nat)
    (hc : 1 ≤ c) (hk1 : start ≤ k) (hk2 : k < min (start + c) asins.length)
    (hfirst : ∀ j, start ≤ j → j < k → haltsAt asins oracle j = false)
    (hhalt : haltsAt asins oracle k = true)
    (hv : mainAsins v r = asins) (hr : r ≤ v.length) :
    (process_chunk c asins oracle start).stop = k ∧
      (process_chunk c asins oracle start).processed
        = countAttempted asins oracle start (k - start) ∧
      load_progress (save_progress k) = LoadResult.ok k ∧
      (mainRun c r k v oracle).fetches.head? = some k := by
  have hklen : k < asins.length := lt_of_lt_of_le hk2 (Nat.min_le_right _ _)
  obtain ⟨hA, hB⟩ :=
    loopChunk_halt asins oracle k (min (start + c) asins.length - start) start accInit
      hk1 (by omega) hfirst hhalt
  have hnb : ¬ pyStrip (asins.getD k "") = "" :=
    bne_iff_ne.mp (Bool.and_eq_true_iff.mp hhalt).1
  refine ⟨?_, ?_, rfl, ?_⟩
  · rw [process_chunk_eq]
    dsimp only
    rw [hA]
  · rw [process_chunk_eq]
    dsimp only
    rw [hB]
    simp [accInit]
  · have hvr : ¬ (v.length < r) := by omega
    have hlen0 : 0 < asins.length := by omega
    have hE : asins.isEmpty = false := by
      cases asins with
      | nil => simp at hlen0
      | cons a l => rfl
    have hklt : ¬ (k ≥ asins.length) := by omega
    simp only [mainRun, hv, hE, Bool.false_eq_true, if_false]
    rw [if_neg hvr, if_neg hklt]
    dsimp only
    rw [process_chunk_eq]
    dsimp only
    obtain ⟨m, hm⟩ : ∃ m, min (k + c) asins.length - k = m + 1 :=
      ⟨min (k + c) asins.length - k - 1, by omega⟩
    rw [hm]
    obtain ⟨rest, hrest⟩ := loopChunk_fetch_head asins oracle m k accInit hnb
    rw [hrest]
    rfl

/-- C2 (witness): identifiers `["A", "B"]`, chunk size 2, captcha at
position 1 — the chunk stops at 1 with only position 0 counted, and the
next invocation resuming from checkpoint 1 fetches position 1 first. -/
theorem captcha_halt_resume_witness :
    (process_chunk 2 ["A", "B"] captchaAt1Oracle 0).stop = 1 ∧
      (process_chunk 2 ["A", "B"] captchaAt1Oracle 0).processed
        = countAttempted ["A", "B"] captchaAt1Oracle 0 (1 - 0) ∧
      load_progress (save_progress 1) = LoadResult.ok 1 ∧
      (mainRun 2 1 1 ["A", "B"] captchaAt1Oracle).fetches.head? = some 1 :=
  captcha_halt_resume 2 1 ["A", "B"] ["A", "B"] captchaAt1Oracle 0 1
    (by decide) (by decide) (by decide)
    (by
      intro j h0 hj
      interval_cases j
      decide)
    (by decide) (by decide) (by decide)

end Scraper
